import Mathlib

/-!
# Verification of the SubscriptionService core logic

Shallow embedding of the subscription entity, its validation, the
date-window cost calculation, the filter/query builders and the
row-listing / aggregate-cost repository behaviour of the
SubscriptionService Go repository.

The repository contains two variants of the model file
(`internal/subscriptions/model.go` and an unnamed earlier variant) and
two implemented variants of the repository file
(`internal/subscriptions/repository.go` and the variant embedded in the
`handler.go` source stream).  Both variants of each are embedded here;
the namespaces `Model` / `ModelV2` and `Repo` / `RepoV2` mirror them.

Dates: the Go code works with `time.Time` values at day granularity
(start/end dates, the `9999-12-31` sentinel, `AddDate(0, 1, 0)` month
stepping, `Before`/`After` comparisons).  A `time.Time` is modelled as
its civil (proleptic-Gregorian, UTC, midnight) date triple
`(year, month, day)`; `Before`/`After` become lexicographic comparison,
which on normalised triples coincides with Go's instant comparison.  Go
normalises every constructed `time.Time`, so a real `time.Time` value
always corresponds to a `Normalized` triple: month in `[1, 12]`, day in
`[1, daysInMonth]`.  `AddDate(0, 1, 0)` first normalises month `m + 1`
(overflowing into the year) and then rolls an out-of-range day forward
into the following month; since the day of a normalised date is at most
31 and every month has at least 28 days, a single rollover of at most 3
days suffices, which is what `addOneMonth` implements.
-/

namespace SubscriptionService

/-- Gregorian leap-year rule, as in Go's `time` package
(`year%4 == 0 && (year%100 != 0 || year%400 == 0)`). -/
def isLeap (y : Int) : Bool :=
  y % 4 == 0 && (y % 100 != 0 || y % 400 == 0)

/-- Number of days of month `m` of year `y` (months numbered 1–12). -/
def daysInMonth (y m : Int) : Int :=
  if m = 2 then (if isLeap y then 29 else 28)
  else if m = 4 ∨ m = 6 ∨ m = 9 ∨ m = 11 then 30
  else 31

/-- A `time.Time` at day granularity: a civil date triple. -/
structure GoTime where
  year : Int
  month : Int
  day : Int
  deriving DecidableEq, Repr

/-- A triple that an actual Go `time.Time` can denote: Go normalises
every constructed time, so month is in `[1, 12]` and day in
`[1, daysInMonth]`. -/
def Normalized (t : GoTime) : Prop :=
  1 ≤ t.month ∧ t.month ≤ 12 ∧ 1 ≤ t.day ∧ t.day ≤ daysInMonth t.year t.month

instance (t : GoTime) : Decidable (Normalized t) := by
  unfold Normalized; infer_instance

/-- Go's `a.Before(b)`: lexicographic comparison of civil dates. -/
def goBefore (a b : GoTime) : Bool :=
  if a.year ≠ b.year then a.year < b.year
  else if a.month ≠ b.month then a.month < b.month
  else a.day < b.day

/-- Go's `a.After(b)`. -/
def goAfter (a b : GoTime) : Bool :=
  goBefore b a

/-- Go's `t.AddDate(0, 1, 0)` on a day-granularity time: `time.Date`
with month `m + 1`, which normalises the month into the year and rolls
an overflowing day forward into the next month. -/
def addOneMonth (t : GoTime) : GoTime :=
  let y1 := if t.month = 12 then t.year + 1 else t.year
  let m1 := if t.month = 12 then 1 else t.month + 1
  if t.day ≤ daysInMonth y1 m1 then ⟨y1, m1, t.day⟩
  else
    let y2 := if m1 = 12 then y1 + 1 else y1
    let m2 := if m1 = 12 then 1 else m1 + 1
    ⟨y2, m2, t.day - daysInMonth y1 m1⟩

/-- Linear month index `12*year + month`, the measure that each
`AddDate(0, 1, 0)` step advances. -/
def monthIndex (t : GoTime) : Int :=
  12 * t.year + t.month

/-- The loop body of `monthsBetween` (model.go lines 110–117), with an
explicit fuel argument.  The loop `for from.Before(to) { from =
from.AddDate(0, 1, 0); months++ }` advances `from` by one calendar month
per iteration; `monthsBetween_recurrence` below proves that with the
fuel chosen in `monthsBetween` the fuel never runs out, so this is the
exact loop. -/
def monthsBetweenFuel : Nat → GoTime → GoTime → Nat
  | 0, _, _ => 0
  | n + 1, f, t => if goBefore f t then monthsBetweenFuel n (addOneMonth f) t + 1 else 0

/-- `monthsBetween(from, to)` of model.go: the number of
`AddDate(0, 1, 0)` steps from `from` until it is no longer before
`to`. -/
def monthsBetween (f t : GoTime) : Nat :=
  monthsBetweenFuel (monthIndex t - monthIndex f + 2).toNat f t

/-- `maxTime` of model.go: `if a.After(b) { return a }; return b`. -/
def maxTime (a b : GoTime) : GoTime :=
  if goAfter a b then a else b

/-- `minTime` of model.go: `if a.Before(b) { return a }; return b`. -/
def minTime (a b : GoTime) : GoTime :=
  if goBefore a b then a else b

/-- Number of bytes of the UTF-8 encoding of a character; Go's `len` on
a string counts bytes. -/
def charUtf8Size (c : Char) : Nat :=
  if c.toNat < 0x80 then 1
  else if c.toNat < 0x800 then 2
  else if c.toNat < 0x10000 then 3
  else 4

/-- Go's `len` on a string: the UTF-8 byte length. -/
def goLen (s : String) : Nat :=
  (s.data.map charUtf8Size).sum

/-- Go's `unicode.IsSpace`: the Unicode White_Space code points
(`\t \n \v \f \r space U+0085 U+00A0 U+1680 U+2000–U+200A U+2028 U+2029
U+202F U+205F U+3000`). -/
def isGoSpace (c : Char) : Bool :=
  let n := c.toNat
  (9 ≤ n && n ≤ 13) || n == 32 || n == 0x85 || n == 0xA0 || n == 0x1680 ||
    (0x2000 ≤ n && n ≤ 0x200A) || n == 0x2028 || n == 0x2029 ||
    n == 0x202F || n == 0x205F || n == 0x3000

/-- Go's `strings.TrimSpace`: remove the leading and trailing runs of
white-space characters. -/
def trimSpace (s : String) : String :=
  ⟨((s.data.dropWhile isGoSpace).rdropWhile isGoSpace : List Char)⟩

/-- The named validation errors of both model variants. -/
inductive ValidationError where
  | invalidServiceName
  | invalidPrice
  | invalidUserID
  | invalidDateRange
  deriving DecidableEq, Repr

/-- The `Subscription` struct (identical in both model variants). -/
structure Subscription where
  id : String
  serviceName : String
  price : Int
  userID : String
  startDate : GoTime
  endDate : Option GoTime
  createdAt : GoTime
  updatedAt : GoTime
  deriving DecidableEq, Repr

namespace Model

/-- `Validate` of model.go (lines 46–64): checks the stored field values
as they are — it does not re-trim. -/
def Validate (s : Subscription) : Option ValidationError :=
  if goLen s.serviceName < 2 ∨ goLen s.serviceName > 100 then
    some .invalidServiceName
  else if s.price ≤ 0 then some .invalidPrice
  else if goLen s.userID ≠ 36 then some .invalidUserID
  else if (match s.endDate with
          | none => false
          | some e => goBefore e s.startDate) then some .invalidDateRange
  else none

/-- `NewSubscription` of model.go (lines 28–44): trims `serviceName` and
`userID`, stamps the timestamps with the current time (passed here as
`now`), validates and returns the entity or the validation error (the
Go code wraps it with `fmt.Errorf("invalid subscription: %w", err)`,
which preserves the named error). -/
def NewSubscription (now : GoTime) (serviceName : String) (price : Int)
    (userID : String) (startDate : GoTime) (endDate : Option GoTime) :
    Except ValidationError Subscription :=
  let sub : Subscription :=
    { id := ""
      serviceName := trimSpace serviceName
      price := price
      userID := trimSpace userID
      startDate := startDate
      endDate := endDate
      createdAt := now
      updatedAt := now }
  match Validate sub with
  | some e => .error e
  | none => .ok sub

/-- `IsActive` of model.go (lines 67–77): active at instant `at` iff
`at` is not before the start date and, when an end date exists, `at` is
strictly before it (end date exclusive). -/
def IsActive (s : Subscription) (instant : GoTime) : Bool :=
  if goBefore instant s.startDate then false
  else
    match s.endDate with
    | none => true
    | some e => goBefore instant e

/-- `IsActiveDuringPeriod` of model.go (lines 94–101): the containment
check `to ≥ from` and `from ≥ startDate` and
(`endDate` absent or `to ≤ endDate`). -/
def IsActiveDuringPeriod (s : Subscription) (f t : GoTime) : Bool :=
  if goBefore t f then false
  else
    !goBefore f s.startDate &&
      (match s.endDate with
       | none => true
       | some e => !goAfter t e)

/-- `getEndDateOrMax` of model.go (lines 103–108): the end date, or the
far-future sentinel `9999-12-31` when the subscription is
open-ended. -/
def getEndDateOrMax (s : Subscription) : GoTime :=
  match s.endDate with
  | none => ⟨9999, 12, 31⟩
  | some e => e

/-- `CalculateCostForPeriod` of model.go (lines 80–91). -/
def CalculateCostForPeriod (s : Subscription) (f t : GoTime) : Int :=
  if !IsActiveDuringPeriod s f t then 0
  else
    s.price *
      (monthsBetween (maxTime f s.startDate) (minTime t (getEndDateOrMax s)) : Int)

end Model

namespace ModelV2

/-- `Validate` of the earlier model variant (`src/unnamed/part_001`,
lines 51–72): re-trims `ServiceName` and `UserID` defensively (mutating
the receiver) before checking the lengths.  Returns the mutated entity
together with the error, if any. -/
def Validate (s : Subscription) : Subscription × Option ValidationError :=
  let s1 := { s with serviceName := trimSpace s.serviceName }
  if goLen s1.serviceName < 2 ∨ goLen s1.serviceName > 100 then
    (s1, some .invalidServiceName)
  else if s1.price ≤ 0 then (s1, some .invalidPrice)
  else
    let s2 := { s1 with userID := trimSpace s1.userID }
    if goLen s2.userID ≠ 36 then (s2, some .invalidUserID)
    else if (match s2.endDate with
            | none => false
            | some e => goBefore e s2.startDate) then (s2, some .invalidDateRange)
    else (s2, none)

/-- `NewSubscription` of the earlier model variant
(`src/unnamed/part_001`, lines 27–49). -/
def NewSubscription (now : GoTime) (serviceName : String) (price : Int)
    (userID : String) (startDate : GoTime) (endDate : Option GoTime) :
    Except ValidationError Subscription :=
  let sub : Subscription :=
    { id := ""
      serviceName := trimSpace serviceName
      price := price
      userID := trimSpace userID
      startDate := startDate
      endDate := endDate
      createdAt := now
      updatedAt := now }
  match Validate sub with
  | (_, some e) => .error e
  | (sub', none) => .ok sub'

end ModelV2

/-- `strings.Join(conditions, " AND ")`. -/
def joinConditions (conds : List String) : String :=
  String.intercalate " AND " conds

/-- Modelled from the spec: SQL `SUM(price)` semantics of the external
database — `NULL` over zero rows, the sum of the matching prices
otherwise (the spec relies on this when it says a bare `SUM` yields
null over zero matching rows and `COALESCE(SUM(price), 0)` yields 0). -/
def sqlSum (prices : List Int) : Option Int :=
  match prices with
  | [] => none
  | _ => some prices.sum

/-- Modelled from the spec: SQL `COALESCE(x, d)` — the first non-null
argument. -/
def sqlCoalesce (v : Option Int) (d : Int) : Int :=
  v.getD d

/-- Modelled from the spec: `pgx` scanning a nullable SQL integer into a
Go `int` — a `NULL` cannot be scanned and yields an error. -/
def scanNullableInt (v : Option Int) : Except String Int :=
  match v with
  | some n => .ok n
  | none => .error "cannot scan NULL into int"

namespace Repo

/-- The base `SELECT` of `List` in repository.go (lines 150–152; a Go
raw-string literal with its newlines and tabs). -/
def listBase : String :=
  "\n\t\tSELECT id, service_name, price, user_id, start_date, end_date\n\t\tFROM subscriptions"

/-- The base aggregate query of `CalculateMonthlyCost` in repository.go
(line 200). -/
def costBase : String :=
  "SELECT COALESCE(SUM(price), 0) FROM subscriptions"

/-- The filter loop of repository.go (`List` lines 157–160 and
`CalculateMonthlyCost` lines 205–208): for each entry append the
condition `field = $<len(args)+1>` and the value to the argument
list. -/
def buildConditions (filters : List (String × α)) : List String × List α :=
  filters.foldl
    (fun acc fv =>
      (acc.1 ++ [fv.1 ++ " = $" ++ toString (acc.2.length + 1)], acc.2 ++ [fv.2]))
    ([], [])

/-- Appending the `WHERE` clause (repository.go lines 162–164 and
210–212): only when at least one condition exists. -/
def withWhere (base : String) (conds : List String) : String :=
  if conds.length > 0 then base ++ " WHERE " ++ joinConditions conds else base

/-- The full `List` query and bound arguments of repository.go. -/
def listQuery (filters : List (String × α)) : String × List α :=
  let cs := buildConditions filters
  (withWhere listBase cs.1, cs.2)

/-- The full `CalculateMonthlyCost` query and bound arguments of
repository.go. -/
def costQuery (filters : List (String × α)) : String × List α :=
  let cs := buildConditions filters
  (withWhere costBase cs.1, cs.2)

/-- The row loop of `List` in repository.go (lines 174–196): a row whose
scan fails is logged and skipped (`continue`); the successfully scanned
rows are collected in order. -/
def collectRows : List (Except String Subscription) → List Subscription
  | [] => []
  | .ok r :: rest => r :: collectRows rest
  | .error _ :: rest => collectRows rest

/-- The result of `List` of repository.go once the query itself
succeeded: never an error, the collected rows. -/
def listResult (scans : List (Except String Subscription)) :
    Except String (List Subscription) :=
  .ok (collectRows scans)

/-- The result of `CalculateMonthlyCost` of repository.go once the
query succeeded, as a function of the matching prices: the query
selects `COALESCE(SUM(price), 0)` (see `costBase`), which is never
null, and scans it into `total`. -/
def costResult (prices : List Int) : Except String Int :=
  scanNullableInt (some (sqlCoalesce (sqlSum prices) 0))

end Repo

namespace RepoV2

/-- The base `SELECT` of `List` in the handler.go repository variant
(line 232). -/
def listBase : String :=
  "SELECT id, service_name, price, user_id, start_date, end_date FROM subscriptions"

/-- The base aggregate query of `CalculateMonthlyCost` in the
handler.go repository variant (line 282): a bare `SUM`, no
`COALESCE`. -/
def costBase : String :=
  "SELECT SUM(price) FROM subscriptions"

/-- The filter loop of the handler.go repository variant (`List` lines
237–246, `CalculateMonthlyCost` lines 287–296): a conditions string
that starts with `" WHERE "` on the first entry and `" AND "` on later
ones, with a placeholder counter `i` starting at 1. -/
def buildConditionsStr (filters : List (String × α)) : String × List α × Nat :=
  filters.foldl
    (fun acc kv =>
      ((if acc.1 = "" then " WHERE " else acc.1 ++ " AND ") ++
          kv.1 ++ " = $" ++ toString acc.2.2,
        acc.2.1 ++ [kv.2], acc.2.2 + 1))
    ("", [], 1)

/-- The full `List` query and bound arguments of the handler.go
repository variant. -/
def listQuery (filters : List (String × α)) : String × List α :=
  let cs := buildConditionsStr filters
  (listBase ++ cs.1, cs.2.1)

/-- The full `CalculateMonthlyCost` query and bound arguments of the
handler.go repository variant. -/
def costQuery (filters : List (String × α)) : String × List α :=
  let cs := buildConditionsStr filters
  (costBase ++ cs.1, cs.2.1)

/-- The row loop of `List` in the handler.go repository variant (lines
263–273): a scan failure aborts the listing with a
`database scan error`. -/
def listResult : List (Except String Subscription) →
    Except String (List Subscription)
  | [] => .ok []
  | .ok r :: rest => (listResult rest).map (r :: ·)
  | .error e :: _ => .error ("database scan error: " ++ e)

/-- The result of `CalculateMonthlyCost` of the handler.go repository
variant once the query succeeded, as a function of the matching prices:
the query selects a bare `SUM(price)` (see `costBase`) and scans it
into a Go `int`. -/
def costResult (prices : List Int) : Except String Int :=
  scanNullableInt (sqlSum prices)

end RepoV2

/-- `name = $k` predicates with placeholder numbers `k, k+1, …` in list
order. -/
def specPlaceholdersFrom (k : Nat) : List String → List String
  | [] => []
  | n :: rest => (n ++ " = $" ++ toString k) :: specPlaceholdersFrom (k + 1) rest

/-- The spec's `WHERE` clause: nothing for no filters, otherwise one
`WHERE` followed by the equality predicates numbered from `$1` joined
with `AND`. -/
def specWhereClause (names : List String) : String :=
  if names = [] then ""
  else " WHERE " ++ String.intercalate " AND " (specPlaceholdersFrom 1 names)

/-- The tail of the handler.go conditions string after the first
condition: `" AND name = $k"` pieces with consecutive placeholder
numbers. -/
def specCondsFrom (k : Nat) : List String → String
  | [] => ""
  | n :: rest => " AND " ++ n ++ " = $" ++ toString k ++ specCondsFrom (k + 1) rest

/-- The spec's containment ("active during period") condition:
`from ≥ startDate`, `endDate` absent or `to ≤ endDate`, and
`to ≥ from` — written with the code's own comparison. -/
def SpecContained (s : Subscription) (f t : GoTime) : Prop :=
  goBefore f s.startDate = false ∧
  s.endDate.all (fun e => !goAfter t e) = true ∧
  goBefore t f = false

instance (s : Subscription) (f t : GoTime) : Decidable (SpecContained s f t) := by
  unfold SpecContained; infer_instance

/-- A 36-character user identifier used by concrete witnesses. -/
def uid36 : String := "123e4567-e89b-12d3-a456-426614174000"

/-- An open-ended subscription starting 2024-02-01. -/
def sampleOpenSub : Subscription :=
  { id := "1"
    serviceName := "Netflix"
    price := 100
    userID := uid36
    startDate := ⟨2024, 2, 1⟩
    endDate := none
    createdAt := ⟨2024, 1, 1⟩
    updatedAt := ⟨2024, 1, 1⟩ }

/-- The spec's example subscription: priced 100, starting January 2024,
open-ended. -/
def exampleSub : Subscription :=
  { id := "2"
    serviceName := "Netflix"
    price := 100
    userID := uid36
    startDate := ⟨2024, 1, 1⟩
    endDate := none
    createdAt := ⟨2024, 1, 1⟩
    updatedAt := ⟨2024, 1, 1⟩ }

/-- A subscription with an end date, for the end-boundary claim. -/
def endedSub : Subscription :=
  { id := "3"
    serviceName := "Netflix"
    price := 100
    userID := uid36
    startDate := ⟨2024, 1, 1⟩
    endDate := some ⟨2024, 6, 1⟩
    createdAt := ⟨2024, 1, 1⟩
    updatedAt := ⟨2024, 1, 1⟩ }

/-- The entity built by both `NewSubscription` variants before
validation: trimmed name and user id, the given dates, both timestamps
stamped with the current time. -/
def mkSub (now : GoTime) (serviceName : String) (price : Int) (userID : String)
    (startDate : GoTime) (endDate : Option GoTime) : Subscription :=
  { id := ""
    serviceName := trimSpace serviceName
    price := price
    userID := trimSpace userID
    startDate := startDate
    endDate := endDate
    createdAt := now
    updatedAt := now }

/-- A subscription whose stored fields carry surrounding whitespace but
whose trimmed values satisfy every constraint. -/
def wsSub : Subscription :=
  { id := ""
    serviceName := " ab "
    price := 100
    userID := " 123e4567-e89b-12d3-a456-426614174000 "
    startDate := ⟨2024, 1, 1⟩
    endDate := none
    createdAt := ⟨2024, 1, 1⟩
    updatedAt := ⟨2024, 1, 1⟩ }

/-- The subscription produced by a concrete successful construction. -/
def okSubW : Subscription :=
  { id := ""
    serviceName := "Netflix"
    price := 100
    userID := uid36
    startDate := ⟨2024, 1, 1⟩
    endDate := some ⟨2025, 1, 1⟩
    createdAt := ⟨2024, 1, 1⟩
    updatedAt := ⟨2024, 1, 1⟩ }

/-! ## Theorems -/

theorem daysInMonth_ge (y m : Int) : 28 ≤ daysInMonth y m := by
  unfold daysInMonth
  split <;> [split; split] <;> omega

theorem daysInMonth_le (y m : Int) : daysInMonth y m ≤ 31 := by
  unfold daysInMonth
  split <;> [split; split] <;> omega

theorem addOneMonth_normalized {t : GoTime} (h : Normalized t) :
    Normalized (addOneMonth t) := by
  obtain ⟨h1, h2, h3, h4⟩ := h
  have h5 := daysInMonth_le t.year t.month
  have d1 := daysInMonth_ge (t.year + 1) 1
  have d2 := daysInMonth_ge (t.year + 1) (1 + 1)
  have d3 := daysInMonth_ge t.year (t.month + 1)
  have d4 := daysInMonth_ge t.year (t.month + 1 + 1)
  simp only [addOneMonth, Normalized]
  split_ifs <;> dsimp only <;> simp only [decide_eq_true_eq] at * <;> omega

theorem monthIndex_addOneMonth {t : GoTime} (h : Normalized t) :
    monthIndex (addOneMonth t) = monthIndex t + 1 ∨
    monthIndex (addOneMonth t) = monthIndex t + 2 := by
  obtain ⟨h1, h2, h3, h4⟩ := h
  simp only [addOneMonth, monthIndex]
  split_ifs <;> dsimp only <;> omega

theorem goBefore_addOneMonth {t : GoTime} (h : Normalized t) :
    goBefore t (addOneMonth t) = true := by
  obtain ⟨h1, h2, h3, h4⟩ := h
  have h5 := daysInMonth_le t.year t.month
  have d1 := daysInMonth_ge (t.year + 1) 1
  have d3 := daysInMonth_ge t.year (t.month + 1)
  have d4 := daysInMonth_ge t.year (t.month + 1 + 1)
  simp only [addOneMonth, goBefore]
  split_ifs <;> dsimp only at * <;> simp only [decide_eq_true_eq] at * <;> omega

theorem monthIndex_le_of_goBefore {a b : GoTime} (ha : Normalized a)
    (hb : Normalized b) (h : goBefore a b = true) :
    monthIndex a ≤ monthIndex b := by
  obtain ⟨ha1, ha2, _, _⟩ := ha
  obtain ⟨hb1, hb2, _, _⟩ := hb
  simp only [goBefore] at h
  simp only [monthIndex]
  split_ifs at h <;> simp only [decide_eq_true_eq, ne_eq, not_not] at * <;> omega

theorem monthsBetweenFuel_of_not_before {n : Nat} {f t : GoTime}
    (h : goBefore f t = false) : monthsBetweenFuel n f t = 0 := by
  cases n with
  | zero => rfl
  | succ n => simp [monthsBetweenFuel, h]

/-- The fuel argument is irrelevant as soon as it dominates the month
distance: the loop stops by itself before the fuel runs out. -/
theorem monthsBetweenFuel_congr (n n' : Nat) {f t : GoTime}
    (hf : Normalized f) (ht : Normalized t)
    (hn : monthIndex t - monthIndex f + 1 ≤ n)
    (hn' : monthIndex t - monthIndex f + 1 ≤ n') :
    monthsBetweenFuel n f t = monthsBetweenFuel n' f t := by
  induction n generalizing n' f with
  | zero =>
    have hb : goBefore f t = false := by
      by_contra hb
      have := monthIndex_le_of_goBefore hf ht (by
        cases h : goBefore f t with
        | false => exact absurd h hb
        | true => rfl)
      omega
    rw [monthsBetweenFuel_of_not_before hb, monthsBetweenFuel_of_not_before hb]
  | succ n ih =>
    cases n' with
    | zero =>
      have hb : goBefore f t = false := by
        by_contra hb
        have := monthIndex_le_of_goBefore hf ht (by
          cases h : goBefore f t with
          | false => exact absurd h hb
          | true => rfl)
        omega
      rw [monthsBetweenFuel_of_not_before hb, monthsBetweenFuel_of_not_before hb]
    | succ n' =>
      cases hb : goBefore f t with
      | false => simp [monthsBetweenFuel, hb]
      | true =>
        simp only [monthsBetweenFuel, hb, if_true]
        have hstep := monthIndex_addOneMonth hf
        have hle := monthIndex_le_of_goBefore hf ht hb
        have := ih n' (addOneMonth_normalized hf) (by omega) (by omega)
        omega

/-- The Go loop recurrence for `monthsBetween`: one month is added and
counted while `from` is before `to`, and the result is `0` once it is
not.  (This also certifies that the fuel in `monthsBetween` is enough:
the function is the exact while loop of model.go.) -/
theorem monthsBetween_recurrence {f t : GoTime} (hf : Normalized f)
    (ht : Normalized t) :
    monthsBetween f t =
      if goBefore f t then monthsBetween (addOneMonth f) t + 1 else 0 := by
  cases hb : goBefore f t with
  | false =>
    simp only [monthsBetween, if_false, Bool.false_eq_true]
    exact monthsBetweenFuel_of_not_before hb
  | true =>
    simp only [monthsBetween, if_true]
    have hle := monthIndex_le_of_goBefore hf ht hb
    have hfuel : (monthIndex t - monthIndex f + 2).toNat =
        (monthIndex t - monthIndex f + 1).toNat + 1 := by omega
    rw [hfuel]
    simp only [monthsBetweenFuel, hb, if_true]
    have hstep := monthIndex_addOneMonth hf
    have := monthsBetweenFuel_congr (monthIndex t - monthIndex f + 1).toNat
      (monthIndex t - monthIndex (addOneMonth f) + 2).toNat
      (addOneMonth_normalized hf) ht (by omega) (by omega)
    omega

/-- `TrimSpace` is idempotent: trimming an already trimmed string
changes nothing. -/
theorem trimSpace_idem (s : String) : trimSpace (trimSpace s) = trimSpace s := by
  show (⟨_⟩ : String) = ⟨_⟩
  simp only [trimSpace]
  congr 1
  have h1 : ((s.data.dropWhile isGoSpace).rdropWhile isGoSpace).dropWhile isGoSpace
      = (s.data.dropWhile isGoSpace).rdropWhile isGoSpace := by
    rw [List.dropWhile_eq_self_iff]
    intro hl
    have hpre := List.rdropWhile_prefix isGoSpace (s.data.dropWhile isGoSpace)
    have hlen : 0 < (s.data.dropWhile isGoSpace).length :=
      lt_of_lt_of_le hl hpre.length_le
    have := List.dropWhile_get_zero_not isGoSpace s.data hlen
    simpa [List.get_eq_getElem, hpre.getElem hl] using this
  rw [h1, List.rdropWhile_idempotent]

theorem intercalate_go_append (s : String) (l : List String) :
    ∀ a b : String, String.intercalate.go (a ++ b) s l =
      a ++ String.intercalate.go b s l := by
  induction l with
  | nil => intro a b; rfl
  | cons x xs ih =>
    intro a b
    show String.intercalate.go (a ++ b ++ s ++ x) s xs =
      a ++ String.intercalate.go (b ++ s ++ x) s xs
    rw [String.append_assoc, String.append_assoc, ih, ← String.append_assoc]

theorem intercalate_cons_cons (s a y : String) (l : List String) :
    String.intercalate s (a :: y :: l) =
      a ++ s ++ String.intercalate s (y :: l) := by
  show String.intercalate.go a s (y :: l) = a ++ s ++ String.intercalate.go y s l
  show String.intercalate.go (a ++ s ++ y) s l = a ++ s ++ String.intercalate.go y s l
  exact intercalate_go_append s l (a ++ s) y

theorem specPlaceholdersFrom_length (k : Nat) (names : List String) :
    (specPlaceholdersFrom k names).length = names.length := by
  induction names generalizing k with
  | nil => rfl
  | cons n rest ih => simp [specPlaceholdersFrom, ih]

theorem buildConditions_foldl {α : Type _} (filters : List (String × α)) :
    ∀ (conds : List String) (args : List α),
      filters.foldl
        (fun acc fv =>
          (acc.1 ++ [fv.1 ++ " = $" ++ toString (acc.2.length + 1)], acc.2 ++ [fv.2]))
        (conds, args)
      = (conds ++ specPlaceholdersFrom (args.length + 1) (filters.map Prod.fst),
          args ++ filters.map Prod.snd) := by
  induction filters with
  | nil => intro conds args; simp [specPlaceholdersFrom]
  | cons fv rest ih =>
    intro conds args
    simp only [List.foldl_cons, List.map_cons, specPlaceholdersFrom]
    rw [ih]
    simp

/-- The repository.go builder produces exactly the spec's `WHERE`
clause over the filter keys (in order, numbered from `$1`) and binds
exactly the filter values (in order); the query string does not depend
on the values. -/
theorem repo_buildConditions_spec {α : Type _} (filters : List (String × α)) :
    Repo.buildConditions filters =
      (specPlaceholdersFrom 1 (filters.map Prod.fst), filters.map Prod.snd) := by
  unfold Repo.buildConditions
  rw [buildConditions_foldl]
  simp

theorem repo_withWhere_spec (base : String) (names : List String) :
    Repo.withWhere base (specPlaceholdersFrom 1 names) =
      base ++ specWhereClause names := by
  unfold Repo.withWhere specWhereClause joinConditions
  cases names with
  | nil => simp [specPlaceholdersFrom]
  | cons n rest =>
    rw [if_pos, if_neg (by simp)]
    · rw [String.append_assoc]
    · rw [specPlaceholdersFrom_length]; simp

theorem string_append_ne_empty (a b : String) (h : a ≠ "") : a ++ b ≠ "" := by
  intro hab
  apply h
  have hd : a.data ++ b.data = [] := by
    rw [← String.data_append, hab]
  exact String.ext (List.append_eq_nil.mp hd).1

theorem buildConditionsStr_foldl {α : Type _} (filters : List (String × α)) :
    ∀ (c : String) (args : List α) (i : Nat), c ≠ "" →
      filters.foldl
        (fun acc kv =>
          ((if acc.1 = "" then " WHERE " else acc.1 ++ " AND ") ++
              kv.1 ++ " = $" ++ toString acc.2.2,
            acc.2.1 ++ [kv.2], acc.2.2 + 1))
        (c, args, i)
      = (c ++ specCondsFrom i (filters.map Prod.fst),
          args ++ filters.map Prod.snd, i + filters.length) := by
  induction filters with
  | nil => intro c args i _; simp [specCondsFrom]
  | cons kv rest ih =>
    intro c args i hc
    simp only [List.foldl_cons, List.map_cons, specCondsFrom, if_neg hc]
    have hne : c ++ " AND " ++ kv.1 ++ " = $" ++ toString i ≠ "" :=
      string_append_ne_empty _ _ (string_append_ne_empty _ _
        (string_append_ne_empty _ _ (string_append_ne_empty _ _ hc)))
    rw [ih _ _ _ hne]
    simp only [Prod.mk.injEq]
    refine ⟨?_, ?_, ?_⟩
    · simp only [String.append_assoc]
    · simp
    · simp only [List.length_cons]; omega

/-- Joining the numbered placeholders with `AND` gives the first
placeholder followed by the `" AND …"` pieces. -/
theorem intercalate_specPlaceholdersFrom (k : Nat) (n : String) (names : List String) :
    String.intercalate " AND " (specPlaceholdersFrom k (n :: names)) =
      n ++ " = $" ++ toString k ++ specCondsFrom (k + 1) names := by
  induction names generalizing k n with
  | nil =>
    show String.intercalate " AND " [n ++ " = $" ++ toString k] = _
    show n ++ " = $" ++ toString k = _
    simp [specCondsFrom]
  | cons m rest ih =>
    show String.intercalate " AND "
        ((n ++ " = $" ++ toString k) :: specPlaceholdersFrom (k + 1) (m :: rest)) = _
    rw [show specPlaceholdersFrom (k + 1) (m :: rest) =
        (m ++ " = $" ++ toString (k + 1)) :: specPlaceholdersFrom (k + 1 + 1) rest from rfl,
      intercalate_cons_cons,
      show ((m ++ " = $" ++ toString (k + 1)) :: specPlaceholdersFrom (k + 1 + 1) rest)
        = specPlaceholdersFrom (k + 1) (m :: rest) from rfl, ih]
    simp only [specCondsFrom, String.append_assoc]

theorem goBefore_self (t : GoTime) : goBefore t t = false := by
  simp [goBefore]

/-- The handler.go string builder also produces exactly the spec's
`WHERE` clause over the filter keys with values bound in order. -/
theorem repoV2_conditions_spec {α : Type _} (filters : List (String × α)) :
    ((RepoV2.buildConditionsStr filters).1, (RepoV2.buildConditionsStr filters).2.1) =
      (specWhereClause (filters.map Prod.fst), filters.map Prod.snd) := by
  unfold RepoV2.buildConditionsStr specWhereClause
  cases filters with
  | nil => simp [specCondsFrom]
  | cons kv rest =>
    simp only [List.foldl_cons, reduceIte, List.map_cons]
    have hW : (" WHERE " : String) ≠ "" := by
      intro h
      simpa using congrArg String.data h
    have hne : (" WHERE " : String) ++ kv.1 ++ " = $" ++ toString 1 ≠ "" :=
      string_append_ne_empty _ _ (string_append_ne_empty _ _
        (string_append_ne_empty _ _ hW))
    rw [buildConditionsStr_foldl _ _ _ _ hne]
    rw [if_neg (by simp)]
    rw [intercalate_specPlaceholdersFrom]
    simp [Prod.mk.injEq, String.append_assoc]

/-- The code's containment check is exactly the spec's containment
condition. -/
theorem isActiveDuringPeriod_iff_specContained (s : Subscription) (f t : GoTime) :
    Model.IsActiveDuringPeriod s f t = true ↔ SpecContained s f t := by
  unfold Model.IsActiveDuringPeriod SpecContained
  cases hsd : s.endDate <;>
    simp only [hsd, Option.all] <;> split_ifs <;> simp_all

theorem newSubscription_eq_mkSub (now : GoTime) (sn : String) (p : Int)
    (uid : String) (sd : GoTime) (ed : Option GoTime) :
    Model.NewSubscription now sn p uid sd ed =
      (match Model.Validate (mkSub now sn p uid sd ed) with
       | some e => Except.error e
       | none => Except.ok (mkSub now sn p uid sd ed)) := rfl

theorem newSubscriptionV2_eq_mkSub (now : GoTime) (sn : String) (p : Int)
    (uid : String) (sd : GoTime) (ed : Option GoTime) :
    ModelV2.NewSubscription now sn p uid sd ed =
      (match ModelV2.Validate (mkSub now sn p uid sd ed) with
       | (_, some e) => Except.error e
       | (sub', none) => Except.ok sub') := rfl

/-- `Validate` of model.go succeeds exactly on the valid field values
(as stored, untrimmed). -/
theorem validate_none_iff (s : Subscription) :
    Model.Validate s = none ↔
      (2 ≤ goLen s.serviceName ∧ goLen s.serviceName ≤ 100 ∧ 1 ≤ s.price ∧
        goLen s.userID = 36 ∧
        s.endDate.all (fun e => !goBefore e s.startDate) = true) := by
  unfold Model.Validate
  cases hsd : s.endDate <;>
    simp only [hsd, Option.all] <;> split_ifs <;> simp_all <;> omega

theorem validate_sn_error (s : Subscription)
    (h : ¬(2 ≤ goLen s.serviceName ∧ goLen s.serviceName ≤ 100)) :
    Model.Validate s = some .invalidServiceName := by
  unfold Model.Validate
  rw [if_pos (by omega)]

theorem validate_price_error (s : Subscription)
    (hsn : 2 ≤ goLen s.serviceName ∧ goLen s.serviceName ≤ 100)
    (h : s.price ≤ 0) :
    Model.Validate s = some .invalidPrice := by
  unfold Model.Validate
  rw [if_neg (by omega), if_pos h]

theorem validate_uid_error (s : Subscription)
    (hsn : 2 ≤ goLen s.serviceName ∧ goLen s.serviceName ≤ 100)
    (hp : 1 ≤ s.price) (h : goLen s.userID ≠ 36) :
    Model.Validate s = some .invalidUserID := by
  unfold Model.Validate
  rw [if_neg (by omega), if_neg (by omega), if_pos h]

theorem validate_date_error (s : Subscription)
    (hsn : 2 ≤ goLen s.serviceName ∧ goLen s.serviceName ≤ 100)
    (hp : 1 ≤ s.price) (hu : goLen s.userID = 36)
    (h : ¬ s.endDate.all (fun e => !goBefore e s.startDate) = true) :
    Model.Validate s = some .invalidDateRange := by
  unfold Model.Validate
  rw [if_neg (by omega), if_neg (by omega), if_neg (by omega), if_pos ?_]
  cases hsd : s.endDate with
  | none => rw [hsd] at h; exact absurd rfl h
  | some e =>
    rw [hsd] at h
    simp only [Option.all, Bool.not_eq_true] at h
    simpa using h

/-- On an entity whose name and user id are already trimmed, the
re-trimming `Validate` of the part_001 variant changes nothing and
agrees with the model.go `Validate`. -/
theorem validateV2_of_trimmed (s : Subscription)
    (hs : trimSpace s.serviceName = s.serviceName)
    (hu : trimSpace s.userID = s.userID) :
    ModelV2.Validate s = (s, Model.Validate s) := by
  unfold ModelV2.Validate Model.Validate
  simp only [hs, hu]
  split_ifs <;> rfl

/-- **C1.** `costForPeriod` returns 0 whenever the queried window is not
contained in the subscription's active span (containment being
`from ≥ startDate`, `endDate` absent or `to ≤ endDate`, `to ≥ from`);
in particular a window that merely overlaps the span
(`from < startDate`) costs 0. -/
theorem calculateCostForPeriod_zero_of_not_contained (s : Subscription) (f t : GoTime) :
    (¬ SpecContained s f t → Model.CalculateCostForPeriod s f t = 0) ∧
    (goBefore f s.startDate = true → Model.CalculateCostForPeriod s f t = 0) := by
  have hzero : ¬ SpecContained s f t → Model.CalculateCostForPeriod s f t = 0 := by
    intro h
    have hb : Model.IsActiveDuringPeriod s f t = false := by
      cases hB : Model.IsActiveDuringPeriod s f t with
      | false => rfl
      | true => exact absurd ((isActiveDuringPeriod_iff_specContained s f t).mp hB) h
    simp [Model.CalculateCostForPeriod, hb]
  refine ⟨hzero, fun hf => hzero ?_⟩
  intro hc
  rw [hc.1] at hf
  cases hf

/-- Witness for C1 at concrete inputs: a window starting before the
subscription start (mere overlap), and a fully disjoint window. -/
theorem calculateCostForPeriod_zero_of_not_contained_witness :
    Model.CalculateCostForPeriod sampleOpenSub ⟨2024, 1, 1⟩ ⟨2024, 3, 1⟩ = 0 ∧
    Model.CalculateCostForPeriod sampleOpenSub ⟨2023, 1, 1⟩ ⟨2023, 2, 1⟩ = 0 :=
  ⟨(calculateCostForPeriod_zero_of_not_contained sampleOpenSub ⟨2024, 1, 1⟩ ⟨2024, 3, 1⟩).2
      (by decide),
    (calculateCostForPeriod_zero_of_not_contained sampleOpenSub ⟨2023, 1, 1⟩ ⟨2023, 2, 1⟩).1
      (by decide)⟩

/-- **C2.** For a contained window the cost is
`price × monthsBetween(max(from, startDate), min(to, endDateOrMax))`,
and on the spec's example (price 100, start January 2024, open-ended,
window 2024-01-01 to 2024-04-01) `monthsBetween` counts 3 whole months
and the cost is 300. -/
theorem calculateCostForPeriod_contained_eq (s : Subscription) (f t : GoTime) :
    (SpecContained s f t →
      Model.CalculateCostForPeriod s f t =
        s.price *
          (monthsBetween (maxTime f s.startDate) (minTime t (Model.getEndDateOrMax s)) : Int)) ∧
    monthsBetween ⟨2024, 1, 1⟩ ⟨2024, 4, 1⟩ = 3 ∧
    Model.CalculateCostForPeriod exampleSub ⟨2024, 1, 1⟩ ⟨2024, 4, 1⟩ = 300 := by
  refine ⟨?_, by decide, by decide⟩
  intro h
  have hb := (isActiveDuringPeriod_iff_specContained s f t).mpr h
  simp [Model.CalculateCostForPeriod, hb]

/-- Witness for C2 at the spec's example inputs. -/
theorem calculateCostForPeriod_contained_eq_witness :
    Model.CalculateCostForPeriod exampleSub ⟨2024, 1, 1⟩ ⟨2024, 4, 1⟩ =
      exampleSub.price *
        (monthsBetween (maxTime ⟨2024, 1, 1⟩ exampleSub.startDate)
          (minTime ⟨2024, 4, 1⟩ (Model.getEndDateOrMax exampleSub)) : Int) :=
  (calculateCostForPeriod_contained_eq exampleSub ⟨2024, 1, 1⟩ ⟨2024, 4, 1⟩).1 (by decide)

/-- **C3.** Construction succeeds exactly when the trimmed service name
has length in `[2, 100]`, the price is positive, the trimmed user id
has length 36, and the end date is absent or not earlier than the start
date; each failure yields its named error, both `NewSubscription`
variants agree, and the boundary cases (trimmed length exactly 2 or
100, price 1, `endDate = startDate`) succeed. -/
theorem newSubscription_spec (now : GoTime) (sn : String) (p : Int)
    (uid : String) (sd : GoTime) (ed : Option GoTime) :
    ((∃ sub, Model.NewSubscription now sn p uid sd ed = .ok sub) ↔
      (2 ≤ goLen (trimSpace sn) ∧ goLen (trimSpace sn) ≤ 100 ∧ 1 ≤ p ∧
        goLen (trimSpace uid) = 36 ∧ ed.all (fun e => !goBefore e sd) = true)) ∧
    (¬(2 ≤ goLen (trimSpace sn) ∧ goLen (trimSpace sn) ≤ 100) →
      Model.NewSubscription now sn p uid sd ed = .error .invalidServiceName) ∧
    ((2 ≤ goLen (trimSpace sn) ∧ goLen (trimSpace sn) ≤ 100) → p ≤ 0 →
      Model.NewSubscription now sn p uid sd ed = .error .invalidPrice) ∧
    ((2 ≤ goLen (trimSpace sn) ∧ goLen (trimSpace sn) ≤ 100) → 1 ≤ p →
      goLen (trimSpace uid) ≠ 36 →
      Model.NewSubscription now sn p uid sd ed = .error .invalidUserID) ∧
    ((2 ≤ goLen (trimSpace sn) ∧ goLen (trimSpace sn) ≤ 100) → 1 ≤ p →
      goLen (trimSpace uid) = 36 → ¬ ed.all (fun e => !goBefore e sd) = true →
      Model.NewSubscription now sn p uid sd ed = .error .invalidDateRange) ∧
    (ModelV2.NewSubscription now sn p uid sd ed =
      Model.NewSubscription now sn p uid sd ed) ∧
    ((goLen (trimSpace sn) = 2 ∨ goLen (trimSpace sn) = 100) → p = 1 →
      goLen (trimSpace uid) = 36 → ed = some sd →
      ∃ sub, Model.NewSubscription now sn p uid sd ed = .ok sub) := by
  have hforms := validate_none_iff (mkSub now sn p uid sd ed)
  simp only [mkSub] at hforms
  have hmain : (∃ sub, Model.NewSubscription now sn p uid sd ed = .ok sub) ↔
      (2 ≤ goLen (trimSpace sn) ∧ goLen (trimSpace sn) ≤ 100 ∧ 1 ≤ p ∧
        goLen (trimSpace uid) = 36 ∧ ed.all (fun e => !goBefore e sd) = true) := by
    constructor
    · rintro ⟨sub, hsub⟩
      rw [newSubscription_eq_mkSub] at hsub
      cases hv : Model.Validate (mkSub now sn p uid sd ed) with
      | some e => rw [hv] at hsub; cases hsub
      | none => exact hforms.mp hv
    · intro hcond
      have hv : Model.Validate (mkSub now sn p uid sd ed) = none := hforms.mpr hcond
      exact ⟨_, by rw [newSubscription_eq_mkSub, hv]⟩
  refine ⟨hmain, ?_, ?_, ?_, ?_, ?_, ?_⟩
  · intro h
    rw [newSubscription_eq_mkSub, validate_sn_error _ (by simpa [mkSub] using h)]
  · intro hsn h
    rw [newSubscription_eq_mkSub,
      validate_price_error _ (by simpa [mkSub] using hsn) h]
  · intro hsn hp h
    rw [newSubscription_eq_mkSub,
      validate_uid_error _ (by simpa [mkSub] using hsn) hp (by simpa [mkSub] using h)]
  · intro hsn hp hu h
    rw [newSubscription_eq_mkSub,
      validate_date_error _ (by simpa [mkSub] using hsn) hp
        (by simpa [mkSub] using hu) (by simpa [mkSub] using h)]
  · rw [newSubscriptionV2_eq_mkSub, newSubscription_eq_mkSub,
      validateV2_of_trimmed _ (by simpa [mkSub] using trimSpace_idem sn)
        (by simpa [mkSub] using trimSpace_idem uid)]
    cases hv : Model.Validate (mkSub now sn p uid sd ed) <;> rfl
  · intro hsn hp hu hed
    apply hmain.mpr
    refine ⟨by omega, by omega, by omega, hu, ?_⟩
    rw [hed]
    simp [Option.all, goBefore_self]

/-- Witness for C3: a boundary construction (trimmed length 2, price 1,
`endDate = startDate`) succeeds, and a too-short name fails with
`InvalidServiceName`. -/
theorem newSubscription_spec_witness :
    (∃ sub, Model.NewSubscription ⟨2024, 1, 1⟩ "ab" 1 uid36 ⟨2024, 1, 1⟩
      (some ⟨2024, 1, 1⟩) = .ok sub) ∧
    Model.NewSubscription ⟨2024, 1, 1⟩ "x" 5 uid36 ⟨2024, 1, 1⟩ none =
      .error .invalidServiceName :=
  ⟨(newSubscription_spec ⟨2024, 1, 1⟩ "ab" 1 uid36 ⟨2024, 1, 1⟩
        (some ⟨2024, 1, 1⟩)).2.2.2.2.2.2 (by decide) rfl (by decide) rfl,
    (newSubscription_spec ⟨2024, 1, 1⟩ "x" 5 uid36 ⟨2024, 1, 1⟩ none).2.1 (by decide)⟩

/-- **C4 counterexample.** The model.go `Validate` does not re-trim: on
a subscription whose `ServiceName` and `UserID` carry surrounding
whitespace while the trimmed lengths satisfy the constraints (trimmed
name length 2, trimmed user-id length 36, positive price, no end date),
it fails with `InvalidUserID` instead of succeeding. -/
theorem validate_not_retrim_counterexample :
    (2 ≤ goLen (trimSpace wsSub.serviceName) ∧
      goLen (trimSpace wsSub.serviceName) ≤ 100) ∧
    goLen (trimSpace wsSub.userID) = 36 ∧
    1 ≤ wsSub.price ∧ wsSub.endDate = none ∧
    Model.Validate wsSub = some .invalidUserID := by
  refine ⟨by decide, by decide, by decide, rfl, by decide⟩

/-- **C4 amended.** Only the part_001 variant's `Validate` re-trims
defensively: it succeeds on every instance whose trimmed lengths
satisfy the constraints (with positive price and valid date range),
whatever surrounding whitespace the stored fields carry; the model.go
variant's `Validate` checks the stored lengths without re-trimming, so
such an instance can fail there (see the counterexample). -/
theorem validateV2_retrims_defensively (s : Subscription)
    (hsn : 2 ≤ goLen (trimSpace s.serviceName) ∧
      goLen (trimSpace s.serviceName) ≤ 100)
    (hp : 1 ≤ s.price) (hu : goLen (trimSpace s.userID) = 36)
    (hd : s.endDate.all (fun e => !goBefore e s.startDate) = true) :
    (ModelV2.Validate s).2 = none := by
  unfold ModelV2.Validate
  cases hsd : s.endDate with
  | none => simp only [hsd] at hd ⊢; split_ifs <;> simp_all <;> omega
  | some e =>
    simp only [hsd, Option.all] at hd ⊢
    split_ifs <;> simp_all <;> omega

/-- Witness for C4 (amended) at the concrete whitespace-padded
subscription. -/
theorem validateV2_retrims_defensively_witness :
    (ModelV2.Validate wsSub).2 = none :=
  validateV2_retrims_defensively wsSub (by decide) (by decide) (by decide) rfl

/-- **C5.** Every subscription returned successfully by the validating
constructor satisfies the entity invariants: stored (post-trim) service
name of length in `[2, 100]` and itself trimmed, positive price,
user id of length 36, and end date absent or not before the start
date. -/
theorem newSubscription_ok_invariants (now : GoTime) (sn : String) (p : Int)
    (uid : String) (sd : GoTime) (ed : Option GoTime) (sub : Subscription)
    (h : Model.NewSubscription now sn p uid sd ed = .ok sub) :
    (2 ≤ goLen sub.serviceName ∧ goLen sub.serviceName ≤ 100) ∧
    sub.serviceName = trimSpace sub.serviceName ∧
    1 ≤ sub.price ∧ goLen sub.userID = 36 ∧
    sub.endDate.all (fun e => !goBefore e sub.startDate) = true := by
  rw [newSubscription_eq_mkSub] at h
  cases hv : Model.Validate (mkSub now sn p uid sd ed) with
  | some e => rw [hv] at h; cases h
  | none =>
    rw [hv] at h
    have hsub : mkSub now sn p uid sd ed = sub := by
      cases h; rfl
    subst hsub
    have hc := (validate_none_iff _).mp hv
    refine ⟨⟨hc.1, hc.2.1⟩, ?_, hc.2.2.1, hc.2.2.2.1, hc.2.2.2.2⟩
    show trimSpace sn = trimSpace (trimSpace sn)
    exact (trimSpace_idem sn).symm

/-- Witness for C5 at a concrete successful construction (with
whitespace-padded inputs that the constructor trims). -/
theorem newSubscription_ok_invariants_witness :
    (2 ≤ goLen okSubW.serviceName ∧ goLen okSubW.serviceName ≤ 100) ∧
    okSubW.serviceName = trimSpace okSubW.serviceName ∧
    1 ≤ okSubW.price ∧ goLen okSubW.userID = 36 ∧
    okSubW.endDate.all (fun e => !goBefore e okSubW.startDate) = true :=
  newSubscription_ok_invariants ⟨2024, 1, 1⟩ "  Netflix " 100 uid36
    ⟨2024, 1, 1⟩ (some ⟨2025, 1, 1⟩) okSubW rfl

/-- **C9.** For a subscription with end date `e` (not before the start
date), the point check `IsActive` at `e` is `false` (end exclusive)
while the period check over the degenerate window `[e, e]` is `true`
(end inclusive): the two activity checks disagree at the end-date
boundary. -/
theorem isActive_isActiveDuringPeriod_end_boundary (s : Subscription) (e : GoTime)
    (he : s.endDate = some e) (hse : goBefore e s.startDate = false) :
    Model.IsActive s e = false ∧ Model.IsActiveDuringPeriod s e e = true := by
  unfold Model.IsActive Model.IsActiveDuringPeriod
  rw [he]
  simp [hse, goBefore_self, goAfter]

/-- Witness for C9 at a concrete subscription ending 2024-06-01. -/
theorem isActive_isActiveDuringPeriod_end_boundary_witness :
    Model.IsActive endedSub ⟨2024, 6, 1⟩ = false ∧
    Model.IsActiveDuringPeriod endedSub ⟨2024, 6, 1⟩ ⟨2024, 6, 1⟩ = true :=
  isActive_isActiveDuringPeriod_end_boundary endedSub ⟨2024, 6, 1⟩ (by rfl) (by decide)

/-- The row loop of repository.go `List` collects exactly the
successfully scanned rows, in order. -/
theorem collectRows_eq_filterMap (scans : List (Except String Subscription)) :
    Repo.collectRows scans = scans.filterMap Except.toOption := by
  induction scans with
  | nil => rfl
  | cons r rest ih =>
    cases r <;> simp [Repo.collectRows, Except.toOption, ih, List.filterMap_cons]

/-- **C6.** Both repository variants build the list and aggregate
queries as the base statement plus, for a non-empty filter mapping, a
single `WHERE` with one equality predicate per filter entry joined by
`AND`, placeholders numbered consecutively from `$1` in the order of
the bound argument list; the bound arguments are exactly the filter
values in order, and the query string depends only on the filter keys
(values are never interpolated).  An empty filter mapping yields the
base statement with no `WHERE`. -/
theorem queryBuilders_parameterized {α : Type _} (filters : List (String × α)) :
    Repo.listQuery filters =
      (Repo.listBase ++ specWhereClause (filters.map Prod.fst), filters.map Prod.snd) ∧
    Repo.costQuery filters =
      (Repo.costBase ++ specWhereClause (filters.map Prod.fst), filters.map Prod.snd) ∧
    RepoV2.listQuery filters =
      (RepoV2.listBase ++ specWhereClause (filters.map Prod.fst), filters.map Prod.snd) ∧
    RepoV2.costQuery filters =
      (RepoV2.costBase ++ specWhereClause (filters.map Prod.fst), filters.map Prod.snd) ∧
    Repo.listQuery ([] : List (String × α)) = (Repo.listBase, []) ∧
    RepoV2.costQuery ([] : List (String × α)) = (RepoV2.costBase, []) := by
  have h := repoV2_conditions_spec filters
  have h1 : (RepoV2.buildConditionsStr filters).1 =
      specWhereClause (filters.map Prod.fst) := congrArg Prod.fst h
  have h2 : (RepoV2.buildConditionsStr filters).2.1 =
      filters.map Prod.snd := congrArg Prod.snd h
  refine ⟨?_, ?_, ?_, ?_, rfl, rfl⟩
  · simp only [Repo.listQuery, repo_buildConditions_spec, repo_withWhere_spec]
  · simp only [Repo.costQuery, repo_buildConditions_spec, repo_withWhere_spec]
  · simp only [RepoV2.listQuery, h1, h2]
  · simp only [RepoV2.costQuery, h1, h2]

/-- **C7 counterexample.** The aggregate query of the handler.go
repository variant does not use `COALESCE`: it is a bare
`SELECT SUM(price)`, so over zero matching rows the result is `NULL`
and scanning it into the Go `int` fails — the claim's "returns 0 and
never an error" is false there. -/
theorem costResult_bare_sum_counterexample :
    RepoV2.costBase = "SELECT SUM(price) FROM subscriptions" ∧
    RepoV2.costResult [] = .error "cannot scan NULL into int" ∧
    ¬ RepoV2.costResult [] = .ok 0 := by
  refine ⟨rfl, rfl, fun h => ?_⟩
  rw [show RepoV2.costResult [] = Except.error "cannot scan NULL into int" from rfl] at h
  exact Except.noConfusion h

/-- **C7 amended.** The repository.go variant's aggregate query uses
`COALESCE(SUM(price), 0)` and over zero matching rows (and any rows)
returns a value, never an error — `0` for zero rows; the handler.go
variant uses a bare `SUM(price)` and fails on zero matching rows. -/
theorem costResult_coalesce_spec :
    Repo.costBase = "SELECT COALESCE(SUM(price), 0) FROM subscriptions" ∧
    Repo.costResult [] = .ok 0 ∧
    (∀ prices : List Int,
      Repo.costResult prices = .ok (sqlCoalesce (sqlSum prices) 0)) ∧
    RepoV2.costResult [] = .error "cannot scan NULL into int" :=
  ⟨rfl, rfl, fun _ => rfl, rfl⟩

/-- **C8.** In the repository.go `List` a row whose scan fails is
skipped and iteration continues, so the result is exactly the
successfully scanned rows with no error; in the handler.go variant a
scan failure aborts the listing with an error (and with no failing scan
it returns the same rows). -/
theorem listResult_skip_vs_abort (scans : List (Except String Subscription)) :
    Repo.listResult scans = .ok (scans.filterMap Except.toOption) ∧
    (∀ e, Except.error e ∈ scans → ∃ msg, RepoV2.listResult scans = .error msg) ∧
    ((∀ r ∈ scans, ∃ sub, r = .ok sub) →
      RepoV2.listResult scans = .ok (scans.filterMap Except.toOption)) := by
  refine ⟨?_, ?_, ?_⟩
  · show Except.ok (Repo.collectRows scans) = _
    rw [collectRows_eq_filterMap]
  · intro e he
    induction scans with
    | nil => cases he
    | cons r rest ih =>
      cases r with
      | error e' => exact ⟨"database scan error: " ++ e', rfl⟩
      | ok sub =>
        have he' : Except.error e ∈ rest := by
          cases he with
          | tail _ h => exact h
        obtain ⟨msg, hmsg⟩ := ih he'
        exact ⟨msg, by simp only [RepoV2.listResult, hmsg]; rfl⟩
  · intro hall
    induction scans with
    | nil => rfl
    | cons r rest ih =>
      obtain ⟨sub, hsub⟩ := hall r (List.mem_cons_self r rest)
      subst hsub
      have := ih (fun r hr => hall r (List.mem_cons_of_mem _ hr))
      simp only [RepoV2.listResult, this, List.filterMap_cons, Except.toOption]
      rfl

/-- Witness for C8 at a concrete row sequence containing one failing
scan. -/
theorem listResult_skip_vs_abort_witness :
    Repo.listResult [Except.ok exampleSub, Except.error "boom", Except.ok endedSub] =
      .ok [exampleSub, endedSub] ∧
    (∃ msg, RepoV2.listResult
      [Except.ok exampleSub, Except.error "boom", Except.ok endedSub] = .error msg) :=
  ⟨(listResult_skip_vs_abort _).1,
    (listResult_skip_vs_abort _).2.1 "boom"
      (List.Mem.tail _ (List.Mem.head _))⟩

/-- **C10.** `monthsBetween` terminates on every pair of times: each
loop step `AddDate(0, 1, 0)` strictly increases `from`, the loop
satisfies exactly the Go recurrence (so the fuel in the embedding never
truncates it), the result is 0 whenever `from ≥ to`, and for open-ended
subscriptions the upper bound is the finite sentinel `9999-12-31`. -/
theorem monthsBetween_terminates :
    (∀ t : GoTime, Normalized t → goBefore t (addOneMonth t) = true) ∧
    (∀ f t : GoTime, goBefore f t = false → monthsBetween f t = 0) ∧
    (∀ f t : GoTime, Normalized f → Normalized t →
      monthsBetween f t =
        if goBefore f t then monthsBetween (addOneMonth f) t + 1 else 0) ∧
    (∀ s : Subscription, s.endDate = none → Model.getEndDateOrMax s = ⟨9999, 12, 31⟩) := by
  refine ⟨fun t ht => goBefore_addOneMonth ht,
    fun f t h => monthsBetweenFuel_of_not_before h,
    fun f t hf ht => monthsBetween_recurrence hf ht,
    fun s hs => ?_⟩
  simp [Model.getEndDateOrMax, hs]

/-- Witness for C10 at concrete dates (including a month-end date whose
step rolls over). -/
theorem monthsBetween_terminates_witness :
    goBefore ⟨2024, 1, 31⟩ (addOneMonth ⟨2024, 1, 31⟩) = true ∧
    monthsBetween ⟨2024, 3, 1⟩ ⟨2024, 3, 1⟩ = 0 ∧
    monthsBetween ⟨2024, 1, 1⟩ ⟨2024, 4, 1⟩ =
      (if goBefore ⟨2024, 1, 1⟩ ⟨2024, 4, 1⟩ then
        monthsBetween (addOneMonth ⟨2024, 1, 1⟩) ⟨2024, 4, 1⟩ + 1 else 0) ∧
    Model.getEndDateOrMax sampleOpenSub = ⟨9999, 12, 31⟩ :=
  ⟨monthsBetween_terminates.1 _ (by decide),
    monthsBetween_terminates.2.1 _ _ (by decide),
    monthsBetween_terminates.2.2.1 _ _ (by decide) (by decide),
    monthsBetween_terminates.2.2.2 _ (by rfl)⟩

end SubscriptionService

